import Mathlib

/-!
Verification development for the nestjs-tracing library: the tracing-decorator +
unified-alert-dispatch pipeline.

The embedding covers:
* the body sanitizer `sanitizeSensitiveFields` and the body-extraction wrapper
  `extractAndSanitizeBody` of `src/decorators/trace.decorator.ts`,
* the error classifier `isCriticalError` of the same file,
* the span-wrapping decorator body (`descriptor.value`) of the same file,
* the alert dispatcher `UnifiedAlertService` (`sendErrorAlert`,
  `sendCriticalErrorAlert`, `sendBatchErrorAlerts`, `logAlertResults`),
* a model, written from the specification, of the `safeStringify` serializer
  that the repository's tests exercise but whose implementation is absent.

JavaScript values are modelled in two ways, matching how the source uses them:
a heap model (`JsVal`/`Heap`) for arbitrary runtime values, which can express
cyclic object graphs, and a tree model (`JsonValue`) for JSON data, which is
what `JSON.parse` can ever produce and what `sanitizeSensitiveFields` is applied
to.  All functions are fuel-free structural recursions or carry an explicit fuel
argument that is provably sufficient at every use, so every definition reduces
inside the kernel.
-/

/-! ### Character and string utilities

JavaScript string operations used by the source: `toLowerCase` (ASCII is all the
source's keyword tables need), `includes` (contiguous substring test). -/

/-- ASCII lowercase of one character (`String.prototype.toLowerCase` on the
ASCII range, which covers every keyword and field fragment in the source). -/
def lowerChar (c : Char) : Char :=
  if 'A' ≤ c && c ≤ 'Z' then Char.ofNat (c.toNat + 32) else c

/-- ASCII lowercase of a character list. -/
def lowerChars (cs : List Char) : List Char := cs.map lowerChar

/-- Test that `sub` occurs contiguously inside `s` (the list form of
`String.prototype.includes`). -/
def charsContain : List Char → List Char → Bool
  | s@(_ :: t), sub => sub.isPrefixOf s || charsContain t sub
  | [], sub => sub.isEmpty

/-- Model of `s.toLowerCase().includes(sub.toLowerCase())`. -/
def containsCI (s sub : String) : Bool :=
  charsContain (lowerChars s.toList) (lowerChars sub.toList)

/-- Decimal digits of a natural number, most significant first (fuel-structural
so that it reduces in the kernel; the fuel `n + 1` always suffices). -/
def natCharsAux : Nat → Nat → List Char
  | 0, _ => []
  | fuel + 1, n =>
    if n < 10 then [Char.ofNat (48 + n)]
    else natCharsAux fuel (n / 10) ++ [Char.ofNat (48 + n % 10)]

/-- Decimal rendering of a natural number. -/
def natChars (n : Nat) : List Char := natCharsAux (n + 1) n

/-- Decimal rendering of an integer (how a JavaScript integral number prints). -/
def intChars : Int → List Char
  | .ofNat n => natChars n
  | .negSucc n => '-' :: natChars (n + 1)

/-! ### The JSON tree model

`JSON.parse` output: acyclic, finitely branching data.  This is the domain on
which the source's `sanitizeSensitiveFields` operates (it is only ever applied
to `JSON.parse` results, and to their sub-values).  Numbers are modelled as
integers; no claim involves fractional JSON numbers. -/

inductive JsonValue : Type where
  | jnull : JsonValue
  | jbool : Bool → JsonValue
  | jnum : Int → JsonValue
  | jstr : String → JsonValue
  | jarr : List JsonValue → JsonValue
  | jobj : List (String × JsonValue) → JsonValue

/-- Model of `sensitiveFields.some((field) => key.toLowerCase().includes(field.toLowerCase()))`
from `trace.decorator.ts` lines 553-556. -/
def isSensitiveKey (key : String) (sensitiveFields : List String) : Bool :=
  sensitiveFields.any (fun field => containsCI key field)

mutual
/-- Model of `target.sanitizeSensitiveFields` from `trace.decorator.ts` lines 539-571:
arrays are mapped element-wise; objects are rebuilt entry by entry, an entry
whose key case-insensitively contains a configured fragment becomes the literal
string `"[REDACTED]"`, every other entry is sanitized recursively; primitives
are returned unchanged. -/
def sanitizeSensitiveFields (obj : JsonValue) (sensitiveFields : List String) : JsonValue :=
  match obj with
  | .jarr items => .jarr (sanitizeItems items sensitiveFields)
  | .jobj fields => .jobj (sanitizeEntries fields sensitiveFields)
  | v => v

/-- The `obj.map((item) => this.sanitizeSensitiveFields(item, sensitiveFields))`
branch of `sanitizeSensitiveFields`. -/
def sanitizeItems (items : List JsonValue) (sensitiveFields : List String) : List JsonValue :=
  match items with
  | [] => []
  | item :: rest => sanitizeSensitiveFields item sensitiveFields :: sanitizeItems rest sensitiveFields

/-- The `for (const [key, value] of Object.entries(obj))` loop of
`sanitizeSensitiveFields`. -/
def sanitizeEntries (fields : List (String × JsonValue)) (sensitiveFields : List String) :
    List (String × JsonValue) :=
  match fields with
  | [] => []
  | (key, value) :: rest =>
    (key,
      if isSensitiveKey key sensitiveFields then .jstr "[REDACTED]"
      else sanitizeSensitiveFields value sensitiveFields) :: sanitizeEntries rest sensitiveFields
end

/-- JSON string-literal rendering of a character (the escapes `JSON.stringify`
emits for the characters appearing in this development's domain). -/
def jsonEscChar (c : Char) : List Char :=
  if c = '"' then ['\\', c]
  else if c = '\\' then ['\\', c]
  else if c = '\n' then ['\\', 'n']
  else if c = '\t' then ['\\', 't']
  else [c]

/-- JSON string literal for `s`, double quotes included. -/
def jsonQuoteChars (s : String) : List Char :=
  '"' :: (s.toList.flatMap jsonEscChar) ++ ['"']

/-- Join character-list fragments with a separator. -/
def joinSep (sep : List Char) : List (List Char) → List Char
  | [] => []
  | [x] => x
  | x :: rest => x ++ sep ++ joinSep sep rest

mutual
/-- Compact printing of a JSON tree, mirroring the formatting of
`JSON.stringify` with no spacing argument: `\x7b"k":v,...\x7d` and `[v,...]`. -/
def printJson : JsonValue → List Char
  | .jnull => "null".toList
  | .jbool true => "true".toList
  | .jbool false => "false".toList
  | .jnum n => intChars n
  | .jstr s => jsonQuoteChars s
  | .jarr items => '[' :: joinSep [','] (printJsonItems items) ++ [']']
  | .jobj fields => '\x7b' :: joinSep [','] (printJsonEntries fields) ++ ['\x7d']

def printJsonItems : List JsonValue → List (List Char)
  | [] => []
  | v :: rest => printJson v :: printJsonItems rest

def printJsonEntries : List (String × JsonValue) → List (List Char)
  | [] => []
  | (k, v) :: rest => (jsonQuoteChars k ++ ':' :: printJson v) :: printJsonEntries rest
end

/-- Model of `JSON.stringify(v)` for JSON trees, as a `String`. -/
def printJsonStr (v : JsonValue) : String := String.mk (printJson v)

/-! ### A JSON parser

`JSON.parse` as used by `extractAndSanitizeBody`: on success it yields the tree
the sanitizer runs on; on any parse failure the source falls back to
string-level sanitization.  Restriction (documented): numbers are parsed as
optionally signed integer literals; fractional/exponent forms make the parser
fail where `JSON.parse` would succeed.  No claim involves such numbers. -/

/-- Skip JSON whitespace. -/
def skipWs (cs : List Char) : List Char :=
  cs.dropWhile (fun c => c = ' ' || c = '\n' || c = '\t' || c = '\r')

/-- The character a JSON escape sequence `\c` denotes. -/
def unescChar (c : Char) : Option Char :=
  if c = '"' || c = '\\' || c = '/' then some c
  else if c = 'n' then some '\n'
  else if c = 't' then some '\t'
  else if c = 'r' then some '\r'
  else none

/-- Parse the body of a JSON string literal (opening quote already consumed);
returns the decoded characters and the rest of the input. -/
def parseStringBody : List Char → Option (List Char × List Char)
  | [] => none
  | '"' :: rest => some ([], rest)
  | '\\' :: c :: rest =>
    match unescChar c, parseStringBody rest with
    | some d, some (s, r) => some (d :: s, r)
    | _, _ => none
  | '\\' :: [] => none
  | c :: rest =>
    match parseStringBody rest with
    | some (s, r) => some (c :: s, r)
    | none => none

/-- Digit test. -/
def isDigitChar (c : Char) : Bool := 47 < c.toNat && c.toNat < 58

/-- Numeric value of a digit string. -/
def digitsToNat (ds : List Char) : Nat :=
  ds.foldl (fun acc c => acc * 10 + (c.toNat - 48)) 0

/-- Parse an integer JSON number literal at the head of the input. -/
def parseIntLit (cs : List Char) : Option (Int × List Char) :=
  let (neg, cs') := match cs with
    | '-' :: t => (true, t)
    | _ => (false, cs)
  let (ds, rest) := cs'.span isDigitChar
  if ds.isEmpty then none
  else
    -- a following '.', 'e' or 'E' would start a fractional/exponent part,
    -- which this model does not cover
    match rest with
    | c :: _ => if c = '.' || c = 'e' || c = 'E' then none
        else some (if neg then -(digitsToNat ds : Int) else (digitsToNat ds : Int), rest)
    | [] => some (if neg then -(digitsToNat ds : Int) else (digitsToNat ds : Int), rest)

/-- Consume an expected literal keyword. -/
def expectChars : List Char → List Char → Option (List Char)
  | [], rest => some rest
  | e :: es, c :: rest => if c = e then expectChars es rest else none
  | _ :: _, [] => none

mutual
/-- Parse one JSON value at the head of the input.  The fuel argument makes the
recursion structural; every call site passes at least `input length + 1`, which
is sufficient because each nesting level consumes at least one character. -/
def parseValue : Nat → List Char → Option (JsonValue × List Char)
  | 0, _ => none
  | fuel + 1, cs =>
    match skipWs cs with
    | [] => none
    | 'n' :: rest => (expectChars "ull".toList rest).map (fun r => (.jnull, r))
    | 't' :: rest => (expectChars "rue".toList rest).map (fun r => (.jbool true, r))
    | 'f' :: rest => (expectChars "alse".toList rest).map (fun r => (.jbool false, r))
    | '"' :: rest => (parseStringBody rest).map (fun (s, r) => (.jstr (String.mk s), r))
    | '[' :: rest =>
      (match skipWs rest with
       | ']' :: r => some (.jarr [], r)
       | _ => (parseElems fuel rest).map (fun (vs, r) => (.jarr vs, r)))
    | '\x7b' :: rest =>
      (match skipWs rest with
       | '\x7d' :: r => some (.jobj [], r)
       | _ => (parseMembers fuel rest).map (fun (ms, r) => (.jobj ms, r)))
    | c :: rest =>
      if c = '-' || isDigitChar c then (parseIntLit (c :: rest)).map (fun (n, r) => (.jnum n, r))
      else none

/-- Parse a nonempty comma-separated list of array elements plus the closing
bracket. -/
def parseElems : Nat → List Char → Option (List JsonValue × List Char)
  | 0, _ => none
  | fuel + 1, cs =>
    match parseValue fuel cs with
    | none => none
    | some (v, rest) =>
      match skipWs rest with
      | ',' :: r =>
        (parseElems fuel r).map (fun (vs, r') => (v :: vs, r'))
      | ']' :: r => some ([v], r)
      | _ => none

/-- Parse a nonempty comma-separated list of object members plus the closing
brace. -/
def parseMembers : Nat → List Char → Option (List (String × JsonValue) × List Char)
  | 0, _ => none
  | fuel + 1, cs =>
    match skipWs cs with
    | '"' :: rest =>
      match parseStringBody rest with
      | none => none
      | some (k, rest') =>
        match skipWs rest' with
        | ':' :: rest'' =>
          match parseValue fuel rest'' with
          | none => none
          | some (v, rest''') =>
            match skipWs rest''' with
            | ',' :: r => (parseMembers fuel r).map (fun (ms, r') => ((String.mk k, v) :: ms, r'))
            | '\x7d' :: r => some ([(String.mk k, v)], r)
            | _ => none
        | _ => none
    | _ => none
end

/-- Model of `JSON.parse(s)`: parse the whole string as one JSON value; trailing
non-whitespace or any syntax error yields `none` (the thrown `SyntaxError`). -/
def jsonParse (s : String) : Option JsonValue :=
  match parseValue (s.toList.length + 1) s.toList with
  | some (v, rest) => if (skipWs rest).isEmpty then some v else none
  | none => none

/-! ### String-level sanitization

`target.sanitizeString` from `trace.decorator.ts` lines 573-585: for each
configured field, every case-insensitive match of the pattern
`"<field>"\s*:\s*"[^"]*"` is replaced by `"<field>": "[REDACTED]"`. -/

/-- Whitespace class of the regex `\s`. -/
def isWsChar (c : Char) : Bool :=
  c = ' ' || c = '\n' || c = '\t' || c = '\r'

/-- If the pattern `"<field>"\s*:\s*"[^"]*"` matches at the head of `s`
(field compared case-insensitively), return the remaining input after the
match. -/
def matchFieldPat (field : List Char) (s : List Char) : Option (List Char) :=
  match s with
  | '"' :: s1 =>
    match expectChars (lowerChars field) (lowerChars (s1.take field.length)) with
    | some [] =>
      (match s1.drop field.length with
       | '"' :: s2 =>
         (match (s2.dropWhile isWsChar) with
          | ':' :: s3 =>
            (match (s3.dropWhile isWsChar) with
             | '"' :: s4 =>
               (match (s4.dropWhile (fun c => c ≠ '"')) with
                | '"' :: s5 => some s5
                | _ => none)
             | _ => none)
          | _ => none)
       | _ => none)
    | _ => none
  | _ => none

/-- The replacement text `"<field>": "[REDACTED]"`. -/
def redactedReplacement (field : List Char) : List Char :=
  '"' :: field ++ '"' :: ':' :: ' ' :: "\"[REDACTED]\"".toList

/-- Left-to-right global replacement of the field pattern (the `gi`-flagged
`String.prototype.replace`).  Fuel-structural; fuel `s.length + 1` suffices
since every step consumes at least one character. -/
def replaceFieldAux (field : List Char) : Nat → List Char → List Char
  | 0, s => s
  | _ + 1, [] => []
  | fuel + 1, s@(c :: t) =>
    match matchFieldPat field s with
    | some rest => redactedReplacement field ++ replaceFieldAux field fuel rest
    | none => c :: replaceFieldAux field fuel t

/-- Model of `target.sanitizeString` (lines 573-585): fold the per-field global regex
replacement over the configured sensitive fields, in order. -/
def sanitizeString (str : String) (sensitiveFields : List String) : String :=
  sensitiveFields.foldl
    (fun acc field => String.mk (replaceFieldAux field.toList (acc.toList.length + 1) acc.toList))
    str

/-! ### The heap model of JavaScript runtime values

Arguments, results and thrown values of a wrapped method are arbitrary runtime
values; objects live in a heap so that cyclic graphs (`obj.self = obj`) are
expressible.  The model covers primitives and plain objects — the value shapes
every claim is about.  An object records its constructor name, whether it is an
`Error` instance, its own enumerable properties (what `Object.entries` and
`JSON.stringify` see) and its own non-enumerable properties (such as an Error's
`message` and `stack`, visible to property access only). -/

inductive JsVal : Type where
  | null : JsVal
  | undef : JsVal
  | bool : Bool → JsVal
  | num : Int → JsVal
  | str : String → JsVal
  | ref : Nat → JsVal
deriving DecidableEq, Repr

structure HObj : Type where
  ctor : String
  isError : Bool
  fields : List (String × JsVal)
  hidden : List (String × JsVal)
deriving DecidableEq, Repr

abbrev Heap := List HObj

/-- JavaScript truthiness. -/
def truthy : JsVal → Bool
  | .null => false
  | .undef => false
  | .bool b => b
  | .num n => n != 0
  | .str s => !s.toList.isEmpty
  | .ref _ => true

/-- The `typeof` operator on the modelled values (note `typeof null` is
`"object"`). -/
def typeofVal : JsVal → String
  | .null => "object"
  | .undef => "undefined"
  | .bool _ => "boolean"
  | .num _ => "number"
  | .str _ => "string"
  | .ref _ => "object"

/-- Own-property access `v[k]`: `none` models the property being absent or
holding `undefined` (the two are indistinguishable to every `!== undefined`
test in the source).  Primitives have no own properties in this model. -/
def getProp (h : Heap) (v : JsVal) (k : String) : Option JsVal :=
  match v with
  | .ref n =>
    match h.get? n with
    | some o =>
      match (o.fields ++ o.hidden).lookup k with
      | some .undef => none
      | r => r
    | none => none
  | _ => none

/-- Model of `x instanceof Error`. -/
def instanceofError (h : Heap) (v : JsVal) : Bool :=
  match v with
  | .ref n => match h.get? n with
    | some o => o.isError
    | none => false
  | _ => false

/-- Model of `x.constructor.name` for the values on which the source reads it (never
`null`/`undefined`, whose property access throws and is modelled at the call
sites). -/
def ctorName (h : Heap) (v : JsVal) : String :=
  match v with
  | .ref n => match h.get? n with
    | some o => o.ctor
    | none => "Object"
  | .bool _ => "Boolean"
  | .num _ => "Number"
  | .str _ => "String"
  | .null => "Null"
  | .undef => "Undefined"

/-- Model of `String(v)`: the JavaScript string coercion for the modelled values.  An
`Error` instance coerces via `Error.prototype.toString` to `name: message`;
every other object coerces to `"[object Object]"`. -/
def jsToString (h : Heap) (v : JsVal) : String :=
  match v with
  | .null => "null"
  | .undef => "undefined"
  | .bool true => "true"
  | .bool false => "false"
  | .num n => String.mk (intChars n)
  | .str s => s
  | .ref n =>
    match h.get? n with
    | some o =>
      if o.isError then
        match (o.fields ++ o.hidden).lookup "message" with
        | some (.str m) => if m.toList.isEmpty then o.ctor else o.ctor ++ ": " ++ m
        | _ => o.ctor
      else "[object Object]"
    | none => "[object Object]"

/-! ### `JSON.stringify` over the heap

`JSON.stringify` serializes own enumerable properties and throws a `TypeError`
on a circular structure (an object already on the active serialization path).
`.error ()` models that throw; `.ok none` models the call returning `undefined`
(stringifying `undefined` itself).  Fuel-structural: the active path holds
pairwise distinct heap indices, so its length never exceeds the heap's, and the
fuel `h.length + 1` used by `jsonStringify` below never runs out (a ref is only
descended into after the path-membership check). -/

def jsonStringifyAux (h : Heap) : Nat → List Nat → JsVal → Except Unit (Option String)
  | _, _, .undef => .ok none
  | _, _, .null => .ok (some "null")
  | _, _, .bool true => .ok (some "true")
  | _, _, .bool false => .ok (some "false")
  | _, _, .num n => .ok (some (String.mk (intChars n)))
  | _, _, .str s => .ok (some (String.mk (jsonQuoteChars s)))
  | 0, _, .ref _ => .error ()
  | fuel + 1, path, .ref n =>
    if path.contains n then .error ()
    else
      match h.get? n with
      | none => .ok (some "null")
      | some o =>
        let rendered := o.fields.map (fun kv => (kv.1, jsonStringifyAux h fuel (n :: path) kv.2))
        if rendered.any (fun r => match r.2 with | .error _ => true | _ => false) then .error ()
        else
          .ok (some (String.mk ('\x7b' :: joinSep [',']
            (rendered.filterMap (fun r =>
              match r.2 with
              | .ok (some s) => some (jsonQuoteChars r.1 ++ ':' :: s.toList)
              | _ => none)) ++ ['\x7d'])))

/-- Model of `JSON.stringify(v)` over the heap. -/
def jsonStringify (h : Heap) (v : JsVal) : Except Unit (Option String) :=
  jsonStringifyAux h (h.length + 1) [] v

/-! ### The trace configuration

`TraceOptions` resolved against the decorator defaults (`Required<TraceOptions>`,
`trace.decorator.ts` lines 76-94).  `customContext` is modelled by its entry
list over heap values: its keys are spread into the baseline span attributes
(line 128), and its values end up inside `spanData.attributes` and must survive
the `JSON.stringify(spanData, null, 2)` of the finally block (line 279). -/

structure TraceConfig : Type where
  alertOnError : Bool
  alertOnCriticalError : Bool
  severity : String
  businessImpact : String
  userAffected : Bool
  customContext : List (String × JsVal)
  spanName : String
  includeArgs : Bool
  includeUserContext : Bool
  includeHttpContext : Bool
  includeRequestBody : Bool
  includeResponseBody : Bool
  includeErrorBody : Bool
  maxBodySize : Nat
  sensitiveFields : List String
deriving DecidableEq, Repr

/-- The keys the `...finalOptions.customContext` spread contributes to the
baseline attributes (line 128). -/
def TraceConfig.customContextKeys (cfg : TraceConfig) : List String :=
  cfg.customContext.map Prod.fst

/-- The decorator's `defaultOptions` (lines 76-92); `spanName` defaults to
`<Owner>.<member>` and is supplied per decoration. -/
def defaultConfig (spanName : String) : TraceConfig where
  alertOnError := true
  alertOnCriticalError := true
  severity := "medium"
  businessImpact := "medium"
  userAffected := false
  customContext := []
  spanName := spanName
  includeArgs := true
  includeUserContext := true
  includeHttpContext := true
  includeRequestBody := true
  includeResponseBody := true
  includeErrorBody := true
  maxBodySize := 1000
  sensitiveFields := ["password", "token", "secret", "key", "authorization"]

/-! ### Body extraction -/

/-- Model of `target.isRequestObject` (lines 448-462): the value is truthy and exposes
any of the conventional request fields. -/
def isRequestObject (h : Heap) (v : JsVal) : Bool :=
  truthy v &&
    (["body", "params", "query", "headers", "method", "url", "path"].any
      (fun k => (getProp h v k).isSome))

/-- The body-field cascade of `extractAndSanitizeBody` (lines 475-491): first
defined among `body`, `data`, `payload`, `requestBody`, `responseBody`,
`errorBody`, else the object itself. -/
def selectBody (h : Heap) (obj : JsVal) : JsVal :=
  match getProp h obj "body" with
  | some b => b
  | none =>
  match getProp h obj "data" with
  | some b => b
  | none =>
  match getProp h obj "payload" with
  | some b => b
  | none =>
  match getProp h obj "requestBody" with
  | some b => b
  | none =>
  match getProp h obj "responseBody" with
  | some b => b
  | none =>
  match getProp h obj "errorBody" with
  | some b => b
  | none => obj

/-- Model of `target.extractAndSanitizeBody` (lines 464-536): reject non-objects and
falsy values, select the payload field, convert it to a string
(`JSON.stringify` with `String(body)` fallback), sanitize (tree-level when the
string parses as JSON, string-level otherwise), and truncate to
`maxBodySize`. -/
def extractAndSanitizeBody (h : Heap) (obj : JsVal) (config : TraceConfig) : Option String :=
  if !truthy obj || typeofVal obj != "object" then none
  else
    let body := selectBody h obj
    if !truthy body then none
    else
      let bodyString : String :=
        match body with
        | .str s => s
        | b =>
          if typeofVal b == "object" then
            match jsonStringify h b with
            | .ok (some s) => s
            | _ => jsToString h b
          else jsToString h b
      let sanitized : String :=
        if config.sensitiveFields.length > 0 then
          match jsonParse bodyString with
          | some bodyObj => printJsonStr (sanitizeSensitiveFields bodyObj config.sensitiveFields)
          | none => sanitizeString bodyString config.sensitiveFields
        else bodyString
      some (if config.maxBodySize != 0 && sanitized.toList.length > config.maxBodySize then
          String.mk (sanitized.toList.take config.maxBodySize) ++ "... [truncated]"
        else sanitized)

/-! ### The error classifier -/

/-- The `criticalErrorTypes` allowlist (lines 397-406). -/
def criticalErrorTypes : List String :=
  ["DatabaseConnectionError", "AuthenticationError", "AuthorizationError",
   "ValidationError", "TimeoutError", "NetworkError", "PaymentProcessingError",
   "CriticalBusinessError"]

/-- The `criticalKeywords` list (lines 413-424). -/
def criticalKeywords : List String :=
  ["connection failed", "authentication failed", "authorization failed",
   "timeout", "network error", "database error", "critical", "fatal",
   "payment failed", "transaction failed"]

/-- Rule 4 of `isCriticalError` (lines 436-441):
`(error as any).critical === true || (error as any).severity === 'critical'`.
`.error ()` models the `TypeError` a property read off `null`/`undefined`
throws. -/
def criticalFlagCheck (h : Heap) (error : JsVal) : Except Unit Bool :=
  match error with
  | .null => .error ()
  | .undef => .error ()
  | e =>
    .ok (getProp h e "critical" == some (.bool true)
      || getProp h e "severity" == some (.str "critical"))

/-- Model of `target.isCriticalError` (lines 382-445).  Rule 1: the configured severity
or business impact is exactly `"critical"`.  Rules 2 and 3 (type allowlist,
then message keywords) run only under `error instanceof Error`; an `Error`
without an own string `message` inherits `""` from `Error.prototype`, and a
non-string own `message` makes `.toLowerCase()` throw (`.error ()`).  Rule 4
is the explicit-marker check. -/
def isCriticalError (h : Heap) (error : JsVal) (config : TraceConfig) : Except Unit Bool :=
  if config.severity == "critical" || config.businessImpact == "critical" then .ok true
  else
    if instanceofError h error then
      if criticalErrorTypes.contains (ctorName h error) then .ok true
      else
        match getProp h error "message" with
        | some (.str m) =>
          if criticalKeywords.any (fun kw => containsCI m kw) then .ok true
          else criticalFlagCheck h error
        | some _ => .error ()
        | none => criticalFlagCheck h error
    else criticalFlagCheck h error

/-! ### The safe serializer, modelled from the specification

Modelled from the spec: the repository has no implementation of the
`safeStringify` serializer — the spec (§4.1 SafeSerializer) describes it and the
repository's decorator test suite reads `target.safeStringify` and asserts on
its output, but no source file defines it (`extractAndSanitizeBody` falls back
to `JSON.stringify`/`String(body)` instead).  Per the spec: the serializer
tracks the set of container values currently being visited on the active path;
a container already on the active path renders as `"[CIRCULAR_REFERENCE]"`;
past `maxDepth` a nested container renders as `"[MAX_DEPTH_REACHED]"`; an
object key that case-insensitively contains a configured redact fragment
renders as `"[REDACTED]"`; primitives render as their JSON literals;
`undefined`-valued fields are omitted.  The model's domain is the heap model's
values (primitives and plain objects).  The fuel is structural bookkeeping
only: the active path holds pairwise distinct heap indices, so with the fuel
`h.length + 1` used by `safeRender` the zero-fuel branch is unreachable. -/

def safeRenderAux (h : Heap) (fragments : List String) :
    Nat → Option Nat → List Nat → JsVal → JsonValue
  | _, _, _, .null => .jnull
  | _, _, _, .undef => .jnull
  | _, _, _, .bool b => .jbool b
  | _, _, _, .num n => .jnum n
  | _, _, _, .str s => .jstr s
  | fuel, depth, path, .ref n =>
    if path.contains n then .jstr "[CIRCULAR_REFERENCE]"
    else
      match depth with
      | some 0 => .jstr "[MAX_DEPTH_REACHED]"
      | _ =>
        match fuel with
        | 0 => .jstr "[CIRCULAR_REFERENCE]"
        | fuel' + 1 =>
          match h.get? n with
          | none => .jnull
          | some o =>
            .jobj ((o.fields.filter (fun kv => kv.2 != JsVal.undef)).map (fun kv =>
              (kv.1,
                if isSensitiveKey kv.1 fragments then .jstr "[REDACTED]"
                else safeRenderAux h fragments fuel' (depth.map (· - 1)) (n :: path) kv.2)))

/-- Spec-modelled `safeStringify`, rendering stage: the redacted, cycle- and
depth-guarded tree for a heap value. -/
def safeRender (h : Heap) (fragments : List String) (maxDepth : Option Nat) (v : JsVal) :
    JsonValue :=
  safeRenderAux h fragments (h.length + 1) maxDepth [] v

mutual
/-- Printing stage of the spec-modelled serializer, with the `"key": value`
spacing the repository's tests expect. -/
def printJsonSpaced : JsonValue → List Char
  | .jnull => "null".toList
  | .jbool true => "true".toList
  | .jbool false => "false".toList
  | .jnum n => intChars n
  | .jstr s => jsonQuoteChars s
  | .jarr items => '[' :: joinSep (", ".toList) (printJsonSpacedItems items) ++ [']']
  | .jobj fields => '\x7b' :: joinSep (", ".toList) (printJsonSpacedEntries fields) ++ ['\x7d']

def printJsonSpacedItems : List JsonValue → List (List Char)
  | [] => []
  | v :: rest => printJsonSpaced v :: printJsonSpacedItems rest

def printJsonSpacedEntries : List (String × JsonValue) → List (List Char)
  | [] => []
  | (k, v) :: rest =>
    (jsonQuoteChars k ++ ':' :: ' ' :: printJsonSpaced v) :: printJsonSpacedEntries rest
end

/-- Spec-modelled `serialize(value, maxDepth, redactFieldFragments)`. -/
def safeStringify (h : Heap) (fragments : List String) (maxDepth : Option Nat) (v : JsVal) :
    String :=
  String.mk (printJsonSpaced (safeRender h fragments maxDepth v))

/-! ### The span wrapper

The decorated method body (`descriptor.value`, `trace.decorator.ts` lines
96-284).  The model records the sequence of operations performed on the span
(attribute writes by key list, events, status, exception recording), the single
structured completion log, and the span close, together with the outcome the
caller observes.  The wrapped method itself is summarized by its awaited
outcome (`.ok result` or `.error thrownValue`). -/

inductive SpanOp : Type where
  | setAttrs : List String → SpanOp
  | addEvent : String → SpanOp
  | setStatus : String → SpanOp
  | recordException : SpanOp
  | logComplete : SpanOp
  | endSpan : SpanOp
deriving DecidableEq, Repr

/-- What the wrapper throws: either the user value rethrown, or a fresh
`TypeError` raised inside the wrapper itself. -/
inductive Thrown : Type where
  | user : JsVal → Thrown
  | typeError : String → Thrown
deriving DecidableEq, Repr

structure WrapResult : Type where
  outcome : Except Thrown JsVal
  ops : List SpanOp
deriving Repr

/-- The `safeKeys` allowlist for argument attribute capture (lines 139-147). -/
def safeArgKeys : List String :=
  ["id", "type", "status", "name", "code", "userId", "companyId"]

/-- Baseline attribute keys (lines 119-129): fixed method/alert keys plus the
spread `customContext` keys. -/
def baselineKeys (cfg : TraceConfig) : List String :=
  ["service.name", "method.name", "method.args.count", "teams.alert.enabled",
   "teams.alert.severity", "teams.alert.business_impact", "teams.alert.user_affected"]
  ++ cfg.customContextKeys

/-- The `if (requestBody) \x7b ... \x7d` guard applied to an extraction result:
the body/size attribute pair is written exactly when extraction produced a
truthy (non-null, nonempty) string. -/
def bodyCaptureOps (extracted : Option String) (keys : List String) : List SpanOp :=
  match extracted with
  | some s => if !s.toList.isEmpty then [SpanOp.setAttrs keys] else []
  | none => []

/-- Span operations contributed by one argument (the `args.forEach` body,
lines 136-186): safe-key attributes, then the request-body attribute when the
argument looks like a request and extraction yields a truthy string.  Buffers
are outside the model's value domain, so the `!Buffer.isBuffer(arg)` conjunct
is vacuous here. -/
def argAttrOps (h : Heap) (cfg : TraceConfig) (idx : Nat) (arg : JsVal) : List SpanOp :=
  if truthy arg && typeofVal arg == "object" then
    let argKeys := (safeArgKeys.filter (fun k => (getProp h arg k).isSome)).map
      (fun k => "method.arg." ++ String.mk (natChars idx) ++ "." ++ k)
    (if argKeys.isEmpty then [] else [SpanOp.setAttrs argKeys]) ++
    (if cfg.includeRequestBody && isRequestObject h arg then
      bodyCaptureOps (extractAndSanitizeBody h arg cfg) ["request.body", "request.body.size"]
    else [])
  else []

/-- All argument-capture span operations, in argument order. -/
def argsOps (h : Heap) (cfg : TraceConfig) (args : List JsVal) : List SpanOp :=
  (args.enum.map (fun p => argAttrOps h cfg p.1 p.2)).flatten

/-- Test whether `JSON.stringify` succeeds on a heap value (it throws exactly
when a cycle is reachable; `undefined` merely stringifies to `undefined`). -/
def serializable (h : Heap) (v : JsVal) : Bool :=
  match jsonStringify h v with
  | .error _ => false
  | .ok _ => true

/-- Whether the `JSON.stringify(spanData, null, 2)` of the finally block
(line 279) succeeds.  Every field of `spanData` is a string, number, boolean
or `null` by construction — except the spread `customContext` values inside
`spanData.attributes` (line 128), and, on the error path with a non-`null`
thrown value, the raw `error.message` stored into `spanData.status.message`
and `spanData.error.message` (lines 238, 242) and the raw `error.stack`
stored into `spanData.error.stack` (line 244).  (When the thrown value is
`null`/`undefined`, line 238 throws before the assignment, so `spanData.status`
and `spanData.error` stay `null` and only `customContext` matters.) -/
def spanDataStringifyOk (h : Heap) (cfg : TraceConfig)
    (methodOutcome : Except JsVal JsVal) : Bool :=
  cfg.customContext.all (fun kv => serializable h kv.2) &&
  (match methodOutcome with
   | .ok _ => true
   | .error e =>
     if e == JsVal.null || e == JsVal.undef then true
     else
       serializable h ((getProp h e "message").getD JsVal.undef) &&
       serializable h ((getProp h e "stack").getD JsVal.undef))

/-- The finally block of lines 276-282: `logger.log` with the stringified
completion record, then `span.end()` — or, when the stringify throws, neither. -/
def finallyOps (ok : Bool) : List SpanOp :=
  if ok then [SpanOp.logComplete, SpanOp.endSpan] else []

/-- The wrapped invocation (`descriptor.value`, lines 96-284).

The try block attaches baseline and argument attributes and emits the start
event; on success it captures the response body, emits the success event and
sets status OK; on failure it sets status ERROR, records the exception,
attaches error attributes, and — with `alertOnError` — evaluates
`this.sendUnifiedAlert(...)` (line 266).  `sendUnifiedAlert` was attached to
the wrapper function object (line 287), not to the prototype `target` like the
helpers of lines 344-585, so the lookup on the instance yields `undefined` and
the call throws a `TypeError` out of the catch block, replacing the original
error.  Reading `error.message` at line 238 likewise throws when the thrown
value is `null`/`undefined`.  The finally block (lines 276-282) then runs: it
first evaluates `JSON.stringify(spanData, null, 2)` inside the `logger.log`
argument (line 279) and only then calls `span.end()` (line 281); when that
stringify throws — a cyclic `customContext` value, or a thrown value whose
raw `message`/`stack` property is cyclic (stored un-coerced into `spanData`
at lines 238 and 241-245) — no completion log is emitted, the span is never
closed, and the `TypeError` replaces whatever outcome was pending. -/
def traceWrap (h : Heap) (cfg : TraceConfig) (args : List JsVal)
    (methodOutcome : Except JsVal JsVal) : WrapResult :=
  let tryOps := SpanOp.setAttrs (baselineKeys cfg)
    :: (if cfg.includeArgs then argsOps h cfg args else [])
    ++ [SpanOp.addEvent "method.execution.start"]
  let bodyStep : List SpanOp × Except Thrown JsVal :=
    match methodOutcome with
    | .ok result =>
      let respOps :=
        if cfg.includeResponseBody && truthy result then
          bodyCaptureOps (extractAndSanitizeBody h result cfg)
            ["response.body", "response.body.size"]
        else []
      (respOps ++ [SpanOp.addEvent "method.execution.success", SpanOp.setStatus "OK"],
        .ok result)
    | .error error =>
      if error == JsVal.null then
        ([SpanOp.setStatus "ERROR"],
          .error (.typeError "Cannot read properties of null (reading 'message')"))
      else if error == JsVal.undef then
        ([SpanOp.setStatus "ERROR"],
          .error (.typeError "Cannot read properties of undefined (reading 'message')"))
      else
        let errKeys := ["error", "error.type"] ++
          (if cfg.includeErrorBody && truthy error then
            match extractAndSanitizeBody h error cfg with
            | some s => if !s.toList.isEmpty then ["error.body", "error.body.size"]
                else ([] : List String)
            | none => []
          else [])
        let afterOps := [SpanOp.setStatus "ERROR", SpanOp.recordException,
          SpanOp.setAttrs errKeys]
        (afterOps,
          if cfg.alertOnError then
            .error (.typeError "this.sendUnifiedAlert is not a function")
          else
            .error (.user error))
  let logOk := spanDataStringifyOk h cfg methodOutcome
  { outcome :=
      if logOk then bodyStep.2
      else .error (.typeError "Converting circular structure to JSON"),
    ops := tryOps ++ bodyStep.1 ++ finallyOps logOk }

/-! ### The alert dispatcher

`UnifiedAlertService` (`unified-alert.service.ts`).  A provider capability is
its name, configuration flag, and the awaited outcome of each send method
(`.ok ()` resolved, `.error e` rejected).  `isConfigured`/`getProviderName`
are total, as they are on all three in-repo providers. -/

structure ErrorAlertData : Type where
  traceId : String
  spanId : String
deriving DecidableEq, Repr

structure AlertProvider : Type where
  name : String
  configured : Bool
  sendErrorOutcome : ErrorAlertData → Except JsVal Unit
  sendCriticalOutcome : ErrorAlertData → Except JsVal Unit
  sendBatchOutcome : List ErrorAlertData → Except JsVal Unit

/-- One element of the `Promise.allSettled` result array. -/
inductive SettledResult : Type where
  | fulfilled : String → Bool → Option JsVal → SettledResult
  | rejected : JsVal → SettledResult
deriving DecidableEq, Repr

/-- The per-provider `.then(...).catch(...)` wrapping (lines 328-337): a
resolved send becomes a fulfilled success record, a rejected send becomes a
fulfilled failure record carrying the rejection. -/
def settleSend (outcome : Except JsVal Unit) (providerName : String) : SettledResult :=
  match outcome with
  | .ok _ => .fulfilled providerName true none
  | .error e => .fulfilled providerName false (some e)

/-- Log lines of `logAlertResults` and the skip warnings, structurally. -/
inductive AlertLog : Type where
  | skipNoProviders : AlertLog
  | sentVia : List String → AlertLog
  | failedVia : String → AlertLog
  | rejectedVia : AlertLog
  | summaryPartial : Nat → Nat → AlertLog
  | summaryAll : Nat → AlertLog
deriving DecidableEq, Repr

def isSuccessResult : SettledResult → Bool
  | .fulfilled _ true _ => true
  | _ => false

def isFailedResult : SettledResult → Bool
  | .fulfilled _ false _ => true
  | _ => false

def isRejectedResult : SettledResult → Bool
  | .rejected _ => true
  | _ => false

/-- Model of `UnifiedAlertService.logAlertResults` (lines 409-457): partition the
settled results into successful, fulfilled-failure and rejected; log the
success roster, one line per failure, one line per rejection, and a summary
(partial when `failed + rejected > 0`, all-succeeded otherwise). -/
def logAlertResults (results : List SettledResult) : List AlertLog :=
  let successful := results.filter isSuccessResult
  let failed := results.filter isFailedResult
  let rejected := results.filter isRejectedResult
  (if successful.length > 0 then
    [AlertLog.sentVia (successful.filterMap (fun r =>
      match r with | .fulfilled p _ _ => some p | _ => none))]
  else [])
  ++ failed.filterMap (fun r =>
      match r with | .fulfilled p false _ => some (AlertLog.failedVia p) | _ => none)
  ++ rejected.map (fun _ => AlertLog.rejectedVia)
  ++ (if failed.length + rejected.length > 0 then
      [AlertLog.summaryPartial successful.length results.length]
    else [AlertLog.summaryAll results.length])

structure DispatchResult : Type where
  invoked : List String
  results : List SettledResult
  logs : List AlertLog
deriving DecidableEq, Repr

/-- Model of `getConfiguredProviders` (lines 402-404). -/
def getConfiguredProviders (providers : List AlertProvider) : List AlertProvider :=
  providers.filter (·.configured)

/-- Model of `UnifiedAlertService.sendErrorAlert` (lines 320-341): gate on the
configured subset (skip-log and return when empty), settle every configured
provider's wrapped send, log the aggregate.  The function is total: every
per-provider rejection is converted by the `.catch` wrapping, so dispatch
itself never throws. -/
def dispatchErrorAlert (providers : List AlertProvider) (alertData : ErrorAlertData) :
    DispatchResult :=
  let configured := getConfiguredProviders providers
  if configured.isEmpty then
    { invoked := [], results := [], logs := [.skipNoProviders] }
  else
    let results := configured.map (fun p => settleSend (p.sendErrorOutcome alertData) p.name)
    { invoked := configured.map (·.name), results := results, logs := logAlertResults results }

/-- Model of `UnifiedAlertService.sendCriticalErrorAlert` (lines 346-369). -/
def dispatchCriticalErrorAlert (providers : List AlertProvider) (alertData : ErrorAlertData) :
    DispatchResult :=
  let configured := getConfiguredProviders providers
  if configured.isEmpty then
    { invoked := [], results := [], logs := [.skipNoProviders] }
  else
    let results := configured.map (fun p => settleSend (p.sendCriticalOutcome alertData) p.name)
    { invoked := configured.map (·.name), results := results, logs := logAlertResults results }

/-- Model of `UnifiedAlertService.sendBatchErrorAlerts` (lines 374-397): an empty batch
returns before the configured-subset check — no provider invoked, no skip
record. -/
def dispatchBatchErrorAlerts (providers : List AlertProvider) (alerts : List ErrorAlertData) :
    DispatchResult :=
  if alerts.isEmpty then
    { invoked := [], results := [], logs := [] }
  else
    let configured := getConfiguredProviders providers
    if configured.isEmpty then
      { invoked := [], results := [], logs := [.skipNoProviders] }
    else
      let results := configured.map (fun p => settleSend (p.sendBatchOutcome alerts) p.name)
      { invoked := configured.map (·.name), results := results, logs := logAlertResults results }

/-- The entry list of an object tree. -/
def objEntries : JsonValue → List (String × JsonValue)
  | .jobj fields => fields
  | _ => []

/-- The provider's send call rejects (for the error-alert kind). -/
def sendErrorRejects (a : ErrorAlertData) (p : AlertProvider) : Bool :=
  match p.sendErrorOutcome a with
  | .error _ => true
  | .ok _ => false

def isStatusOp : SpanOp → Bool
  | .setStatus _ => true
  | _ => false

def isLogOp : SpanOp → Bool
  | .logComplete => true
  | _ => false

def isEndOp : SpanOp → Bool
  | .endSpan => true
  | _ => false

def isSetAttrsOp : SpanOp → Bool
  | .setAttrs _ => true
  | _ => false

/-- All attribute keys written on the span by an operation trace. -/
def spanAttrKeys (ops : List SpanOp) : List String :=
  (ops.filterMap (fun op => match op with
    | SpanOp.setAttrs keys => some keys
    | _ => none)).flatten

/-- A heap holding `\x7b body: "" \x7d` at index 0: a truthy candidate whose
selected payload field is falsy. -/
def emptyBodyHeap : Heap :=
  [⟨"Object", false, [("body", .str "")], []⟩]

/-! ### Concrete fixtures -/

/-- A heap holding, at index 0, the thrown plain object
`\x7b message: cyc \x7d` whose `message` field is the cyclic object
`cyc = \x7b self: cyc \x7d` at index 1: a non-`Error` thrown value whose raw
`message` defeats the finally block's `JSON.stringify(spanData, null, 2)`. -/
def cyclicMessageHeap : Heap :=
  [⟨"Object", false, [("message", .ref 1)], []⟩,
   ⟨"Object", false, [("self", .ref 1)], []⟩]

/-- A heap holding `new Error("boom")` at index 0 (`message`/`stack` are own
non-enumerable properties). -/
def errorBoomHeap : Heap :=
  [⟨"Error", true, [], [("message", .str "boom"), ("stack", .str "Error: boom")]⟩]

/-- A heap holding the cyclic object `obj = \x7b name: "test" \x7d; obj.self = obj`
at index 0. -/
def cyclicSelfHeap : Heap :=
  [⟨"Object", false, [("name", .str "test"), ("self", .ref 0)], []⟩]

/-- A heap holding the plain (non-`Error`) object `\x7b message: "fatal" \x7d`
at index 0. -/
def keywordObjHeap : Heap :=
  [⟨"Object", false, [("message", .str "fatal")], []⟩]

/-- A heap holding `new Error("a fatal crash")` at index 0. -/
def fatalErrorHeap : Heap :=
  [⟨"Error", true, [], [("message", .str "a fatal crash")]⟩]

/-- A configured provider whose sends all resolve. -/
def providerOk : AlertProvider :=
  ⟨"Teams", true, fun _ => .ok (), fun _ => .ok (), fun _ => .ok ()⟩

/-- A configured provider whose sends all reject. -/
def providerRejecting : AlertProvider :=
  ⟨"Slack", true, fun _ => .error (.str "network down"), fun _ => .error (.str "network down"),
    fun _ => .error (.str "network down")⟩

/-- An unconfigured provider. -/
def providerOff : AlertProvider :=
  ⟨"Google Chat", false, fun _ => .ok (), fun _ => .ok (), fun _ => .ok ()⟩

/-- A sample alert payload. -/
def sampleAlert : ErrorAlertData := ⟨"trace-1", "span-1"⟩

/-! ### Helper lemmas: sanitizer -/

/-- Lemma: `sanitizeEntries` is the entry-wise map the source's `for` loop denotes. -/
theorem sanitizeEntries_eq_map (fields : List (String × JsonValue)) (fs : List String) :
    sanitizeEntries fields fs = fields.map (fun kv =>
      (kv.1, if isSensitiveKey kv.1 fs then .jstr "[REDACTED]"
             else sanitizeSensitiveFields kv.2 fs)) := by
  induction fields with
  | nil => rfl
  | cons kv rest ih =>
    obtain ⟨k, v⟩ := kv
    simp only [sanitizeEntries, List.map_cons, ih]

mutual
theorem sanitizeSensitiveFields_idem (v : JsonValue) (fs : List String) :
    sanitizeSensitiveFields (sanitizeSensitiveFields v fs) fs = sanitizeSensitiveFields v fs := by
  match v with
  | .jnull => rfl
  | .jbool _ => rfl
  | .jnum _ => rfl
  | .jstr _ => rfl
  | .jarr items => simp only [sanitizeSensitiveFields]; rw [sanitizeItems_idem items fs]
  | .jobj fields => simp only [sanitizeSensitiveFields]; rw [sanitizeEntries_idem fields fs]

theorem sanitizeItems_idem (items : List JsonValue) (fs : List String) :
    sanitizeItems (sanitizeItems items fs) fs = sanitizeItems items fs := by
  match items with
  | [] => rfl
  | item :: rest =>
    simp only [sanitizeItems]
    rw [sanitizeSensitiveFields_idem item fs, sanitizeItems_idem rest fs]

theorem sanitizeEntries_idem (fields : List (String × JsonValue)) (fs : List String) :
    sanitizeEntries (sanitizeEntries fields fs) fs = sanitizeEntries fields fs := by
  match fields with
  | [] => rfl
  | (key, value) :: rest =>
    cases h : isSensitiveKey key fs with
    | true => simp only [sanitizeEntries, h, if_true, sanitizeEntries_idem rest fs]
    | false =>
      simp only [sanitizeEntries, h, Bool.false_eq_true, if_false,
        sanitizeSensitiveFields_idem value fs, sanitizeEntries_idem rest fs]
end

/-! ### Claim theorems -/

/-- Claim C10 — Redaction is idempotent: for every value and every sensitive-field
list, applying `sanitizeSensitiveFields` twice equals applying it once
(matching keys are already `"[REDACTED]"`, and the recursion preserves the
structure of non-matching entries and of arrays). -/
theorem c10_sanitize_idempotent (v : JsonValue) (fs : List String) :
    sanitizeSensitiveFields (sanitizeSensitiveFields v fs) fs = sanitizeSensitiveFields v fs :=
  sanitizeSensitiveFields_idem v fs

/-- Claim C7 — Field redaction: in the sanitized object the entry at every index
keeps its key; a key that case-insensitively contains a configured fragment
maps to exactly the literal string `"[REDACTED]"` regardless of the original
value's type, and a non-matching key maps to its recursively sanitized value
(the traversal descends into it).  Moreover the claim's concrete example holds:
`\x7b username: "bob", password: "secret123", token: "abc" \x7d` with the
default `sensitiveFields` yields
`\x7b username: "bob", password: "[REDACTED]", token: "[REDACTED]" \x7d`. -/
theorem c7_field_redaction :
    (∀ (fs : List String) (fields : List (String × JsonValue)) (i : Nat) (k : String)
      (v : JsonValue),
      fields.get? i = some (k, v) →
      (objEntries (sanitizeSensitiveFields (.jobj fields) fs)).get? i =
        some (k, if isSensitiveKey k fs then JsonValue.jstr "[REDACTED]"
                 else sanitizeSensitiveFields v fs)) ∧
    sanitizeSensitiveFields
        (.jobj [("username", .jstr "bob"), ("password", .jstr "secret123"),
                ("token", .jstr "abc")])
        (defaultConfig "UserService.createUser").sensitiveFields =
      .jobj [("username", .jstr "bob"), ("password", .jstr "[REDACTED]"),
             ("token", .jstr "[REDACTED]")] := by
  constructor
  · intro fs fields i k v hget
    simp only [sanitizeSensitiveFields, objEntries, sanitizeEntries_eq_map, List.get?_map, hget,
      Option.map_some']
  · rfl

/-- Witness for C7 at the claim's example: index 1 (`password`) is redacted,
index 0 (`username`) is untouched. -/
theorem c7_field_redaction_witness :
    (objEntries (sanitizeSensitiveFields
        (.jobj [("username", .jstr "bob"), ("password", .jstr "secret123"),
                ("token", .jstr "abc")])
        ["password", "token", "secret", "key", "authorization"])).get? 1 =
      some ("password", JsonValue.jstr "[REDACTED]") ∧
    (objEntries (sanitizeSensitiveFields
        (.jobj [("username", .jstr "bob"), ("password", .jstr "secret123"),
                ("token", .jstr "abc")])
        ["password", "token", "secret", "key", "authorization"])).get? 0 =
      some ("username", JsonValue.jstr "bob") := by
  constructor
  · have := c7_field_redaction.1 ["password", "token", "secret", "key", "authorization"]
      [("username", .jstr "bob"), ("password", .jstr "secret123"), ("token", .jstr "abc")]
      1 "password" (.jstr "secret123") (by rfl)
    simpa using this
  · have := c7_field_redaction.1 ["password", "token", "secret", "key", "authorization"]
      [("username", .jstr "bob"), ("password", .jstr "secret123"), ("token", .jstr "abc")]
      0 "username" (.jstr "bob") (by rfl)
    simpa using this

/-- Claim C5, counterexample — The keyword rule as claimed fails for a caught
value that is not an `Error` instance: the plain object `\x7b message: "fatal" \x7d`
has severity/businessImpact `"medium"` configured, its message contains the
keyword `fatal`, yet `isCriticalError` returns `false` — the keyword check
(lines 412-432) is nested inside `if (error instanceof Error)`. -/
theorem c5_keyword_rule_counterexample :
    (defaultConfig "S.m").severity ≠ "critical" ∧
    (defaultConfig "S.m").businessImpact ≠ "critical" ∧
    instanceofError keywordObjHeap (.ref 0) = false ∧
    criticalKeywords.any (fun kw => containsCI "fatal" kw) = true ∧
    isCriticalError keywordObjHeap (.ref 0) (defaultConfig "S.m") = .ok false :=
  ⟨by decide, by decide, by decide, by decide, rfl⟩

/-- Claim C5, amended — Classifier keyword rule restricted to `Error` instances:
for every caught error that is an `instanceof Error` whose own string `message`
case-insensitively contains one of the fixed keywords, `isCriticalError`
returns true (whatever the configured severity/businessImpact — the
type-allowlist, keyword, and explicit-flag rules are ORs on this domain). -/
theorem c5_keyword_rule_for_error_instances (h : Heap) (n : Nat) (o : HObj)
    (config : TraceConfig) (m : String)
    (hget : h.get? n = some o) (herr : o.isError = true)
    (hmsg : (o.fields ++ o.hidden).lookup "message" = some (.str m))
    (hkw : criticalKeywords.any (fun kw => containsCI m kw) = true) :
    isCriticalError h (.ref n) config = .ok true := by
  unfold isCriticalError
  by_cases hsev : (config.severity == "critical" || config.businessImpact == "critical") = true
  · rw [if_pos hsev]
  · rw [if_neg hsev]
    have hinst : instanceofError h (.ref n) = true := by
      simp only [instanceofError, hget, herr]
    rw [hinst, if_pos rfl]
    by_cases hty : criticalErrorTypes.contains (ctorName h (.ref n)) = true
    · rw [if_pos hty]
    · rw [if_neg hty]
      have hprop : getProp h (.ref n) "message" = some (.str m) := by
        simp only [getProp, hget, hmsg]
      rw [hprop]
      simp only [hkw, if_true]

/-- Witness for C5's amended theorem: `new Error("a fatal crash")` with the
default (medium/medium) configuration classifies as critical. -/
theorem c5_keyword_rule_witness :
    isCriticalError fatalErrorHeap (.ref 0) (defaultConfig "S.m") = .ok true :=
  c5_keyword_rule_for_error_instances fatalErrorHeap 0
    ⟨"Error", true, [], [("message", .str "a fatal crash")]⟩
    (defaultConfig "S.m") "a fatal crash" rfl rfl rfl (by decide)

/-- Claim C1 — Wrapper transparency, evaluated at the failing input: the wrapper
is transparent on success, but on failure with the default configuration
(`alertOnError = true`) the decorated method does not rethrow the original
error.  The wrapped method throws `new Error("boom")` (heap index 0); the
decorated call instead throws the `TypeError` raised by
`await this.sendUnifiedAlert(...)` at line 266, because `sendUnifiedAlert` was
attached to the wrapper function object (line 287) and not to the prototype,
so the instance lookup yields `undefined`.  The alerting-path failure thus
propagates to the caller, replacing the original error. -/
theorem c1_decorated_error_path_replaces_original_error :
    (traceWrap errorBoomHeap (defaultConfig "TestService.method") []
        (.ok (.str "ok"))).outcome = .ok (.str "ok") ∧
    (traceWrap errorBoomHeap (defaultConfig "TestService.method") []
        (.error (.ref 0))).outcome
      = .error (.typeError "this.sendUnifiedAlert is not a function") ∧
    (traceWrap errorBoomHeap (defaultConfig "TestService.method") []
        (.error (.ref 0))).outcome ≠ .error (.user (.ref 0)) := by
  refine ⟨rfl, rfl, ?_⟩
  intro hc
  rw [show (traceWrap errorBoomHeap (defaultConfig "TestService.method") []
      (.error (.ref 0))).outcome
    = .error (.typeError "this.sendUnifiedAlert is not a function") from rfl] at hc
  injection hc with h1
  exact Thrown.noConfusion h1

/-! ### Helper lemmas: dispatcher -/

theorem settleSend_not_rejected (o : Except JsVal Unit) (n : String) :
    isRejectedResult (settleSend o n) = false := by
  cases o <;> rfl

theorem countP_not_eq_sub {α : Type} (l : List α) (q : α → Bool) :
    l.countP (fun x => !q x) = l.length - l.countP q := by
  induction l with
  | nil => rfl
  | cons x t ih =>
    have hle := List.countP_le_length (p := q) (l := t)
    cases hx : q x <;> simp [List.countP_cons, hx, ih] <;> omega

theorem filter_rejected_settle_nil (l : List AlertProvider)
    (g : AlertProvider → Except JsVal Unit) :
    ((l.map (fun p => settleSend (g p) p.name)).filter isRejectedResult) = [] := by
  rw [List.filter_eq_nil]
  intro r hr
  obtain ⟨p, _, hp⟩ := List.mem_map.mp hr
  rw [← hp]
  simp [settleSend_not_rejected]

theorem rejectedVia_not_mem_logAlertResults (results : List SettledResult)
    (hno : results.filter isRejectedResult = []) :
    AlertLog.rejectedVia ∉ logAlertResults results := by
  intro hmem
  simp only [logAlertResults, hno, List.map_nil, List.append_nil, List.mem_append,
    List.mem_filterMap] at hmem
  rcases hmem with (hmem | hmem) | hmem
  · split at hmem <;> simp at hmem
  · obtain ⟨r, _, hr⟩ := hmem
    split at hr <;> simp at hr
  · split at hmem <;> simp at hmem

/-- Claim C3 — Dispatcher failure isolation: with at least one configured backend
and exactly one configured backend whose send call rejects, the dispatch
produces one settled result per configured backend (no short-circuit), the
aggregate counts exactly 1 failure and N-1 successes, the logged summary says
`N-1/N succeeded`, and every configured backend's own settled outcome appears
in the results (the dispatch itself is a total function — every rejection is
absorbed by the per-provider `.catch`, so it resolves without throwing even if
every backend fails). -/
theorem c3_dispatch_failure_isolation (providers : List AlertProvider) (a : ErrorAlertData)
    (hne : 0 < (getConfiguredProviders providers).length)
    (hone : (getConfiguredProviders providers).countP (sendErrorRejects a) = 1) :
    (dispatchErrorAlert providers a).results.length
        = (getConfiguredProviders providers).length ∧
    (dispatchErrorAlert providers a).results.countP isFailedResult = 1 ∧
    (dispatchErrorAlert providers a).results.countP isSuccessResult
        = (getConfiguredProviders providers).length - 1 ∧
    AlertLog.summaryPartial ((getConfiguredProviders providers).length - 1)
        ((getConfiguredProviders providers).length) ∈ (dispatchErrorAlert providers a).logs ∧
    ∀ p ∈ getConfiguredProviders providers,
      settleSend (p.sendErrorOutcome a) p.name ∈ (dispatchErrorAlert providers a).results := by
  have hnonempty : (getConfiguredProviders providers).isEmpty = false := by
    cases hc : getConfiguredProviders providers
    · rw [hc] at hne; simp at hne
    · rfl
  have hres : (dispatchErrorAlert providers a).results
      = (getConfiguredProviders providers).map
          (fun p => settleSend (p.sendErrorOutcome a) p.name) := by
    simp only [dispatchErrorAlert, hnonempty, Bool.false_eq_true, if_false]
  have hlogs : (dispatchErrorAlert providers a).logs
      = logAlertResults ((getConfiguredProviders providers).map
          (fun p => settleSend (p.sendErrorOutcome a) p.name)) := by
    simp only [dispatchErrorAlert, hnonempty, Bool.false_eq_true, if_false]
  have hfailfun : (fun p => isFailedResult (settleSend (p.sendErrorOutcome a) p.name))
      = sendErrorRejects a := by
    funext p
    cases hps : p.sendErrorOutcome a <;>
      simp [settleSend, isFailedResult, sendErrorRejects, hps]
  have hsuccfun : (fun p => isSuccessResult (settleSend (p.sendErrorOutcome a) p.name))
      = (fun p => !sendErrorRejects a p) := by
    funext p
    cases hps : p.sendErrorOutcome a <;>
      simp [settleSend, isSuccessResult, sendErrorRejects, hps]
  have hlen : (dispatchErrorAlert providers a).results.length
      = (getConfiguredProviders providers).length := by
    rw [hres, List.length_map]
  have hfail : (dispatchErrorAlert providers a).results.countP isFailedResult = 1 := by
    rw [hres, List.countP_map]
    calc (getConfiguredProviders providers).countP (isFailedResult ∘
          fun p => settleSend (p.sendErrorOutcome a) p.name)
        = (getConfiguredProviders providers).countP (sendErrorRejects a) := by
          rw [show (isFailedResult ∘ fun p => settleSend (p.sendErrorOutcome a) p.name)
            = sendErrorRejects a from hfailfun]
      _ = 1 := hone
  have hsucc : (dispatchErrorAlert providers a).results.countP isSuccessResult
      = (getConfiguredProviders providers).length - 1 := by
    rw [hres, List.countP_map]
    have : ((getConfiguredProviders providers).countP (isSuccessResult ∘
        fun p => settleSend (p.sendErrorOutcome a) p.name))
        = (getConfiguredProviders providers).countP (fun p => !sendErrorRejects a p) := by
      rw [show (isSuccessResult ∘ fun p => settleSend (p.sendErrorOutcome a) p.name)
        = (fun p => !sendErrorRejects a p) from hsuccfun]
    rw [this, countP_not_eq_sub, hone]
  refine ⟨hlen, hfail, hsucc, ?_, ?_⟩
  · rw [hlogs]
    have hrejnil := filter_rejected_settle_nil (getConfiguredProviders providers)
      (fun p => p.sendErrorOutcome a)
    have hfail' : (((getConfiguredProviders providers).map
        (fun p => settleSend (p.sendErrorOutcome a) p.name)).filter isFailedResult).length
        = 1 := by
      rw [← List.countP_eq_length_filter]
      rw [hres] at hfail
      exact hfail
    have hsucc' : (((getConfiguredProviders providers).map
        (fun p => settleSend (p.sendErrorOutcome a) p.name)).filter isSuccessResult).length
        = (getConfiguredProviders providers).length - 1 := by
      rw [← List.countP_eq_length_filter]
      rw [hres] at hsucc
      exact hsucc
    simp only [logAlertResults, hrejnil, List.map_nil, List.append_nil, hfail', hsucc',
      List.length_nil, List.length_map]
    simp [List.mem_append]
  · intro p hp
    rw [hres]
    exact List.mem_map_of_mem _ hp

/-- Witness for C3: providers `[Teams (resolves), Slack (rejects), Google Chat
(unconfigured)]` — two configured, one rejecting: 2 results, 1 failure, 1
success, a `1/2 succeeded` summary, and both settled outcomes present. -/
theorem c3_dispatch_failure_isolation_witness :
    (dispatchErrorAlert [providerOk, providerRejecting, providerOff] sampleAlert).results.length
        = 2 ∧
    (dispatchErrorAlert [providerOk, providerRejecting, providerOff]
        sampleAlert).results.countP isFailedResult = 1 ∧
    (dispatchErrorAlert [providerOk, providerRejecting, providerOff]
        sampleAlert).results.countP isSuccessResult = 1 ∧
    AlertLog.summaryPartial 1 2
        ∈ (dispatchErrorAlert [providerOk, providerRejecting, providerOff] sampleAlert).logs := by
  have h := c3_dispatch_failure_isolation [providerOk, providerRejecting, providerOff]
    sampleAlert (by decide) (by decide)
  have hn : (getConfiguredProviders [providerOk, providerRejecting, providerOff]).length = 2 :=
    rfl
  exact ⟨by rw [h.1, hn], h.2.1, by rw [h.2.2.1, hn], by have := h.2.2.2.1; rwa [hn] at this⟩

/-- Claim C6 — Dispatcher gating: every dispatch invokes exactly the providers
whose `isConfigured()` is true (the unconfigured ones receive zero calls); when
the configured subset is empty a skip record is logged and nothing is invoked;
and an empty batch is a complete no-op — no backend invoked and no skip
record. -/
theorem c6_dispatch_gating (providers : List AlertProvider) (a : ErrorAlertData)
    (alerts : List ErrorAlertData) :
    (dispatchErrorAlert providers a).invoked
        = (getConfiguredProviders providers).map (·.name) ∧
    (dispatchCriticalErrorAlert providers a).invoked
        = (getConfiguredProviders providers).map (·.name) ∧
    (alerts ≠ [] → (dispatchBatchErrorAlerts providers alerts).invoked
        = (getConfiguredProviders providers).map (·.name)) ∧
    (getConfiguredProviders providers = [] →
      (dispatchErrorAlert providers a).invoked = [] ∧
      AlertLog.skipNoProviders ∈ (dispatchErrorAlert providers a).logs ∧
      (alerts ≠ [] → (dispatchBatchErrorAlerts providers alerts).invoked = [] ∧
        AlertLog.skipNoProviders ∈ (dispatchBatchErrorAlerts providers alerts).logs)) ∧
    (dispatchBatchErrorAlerts providers []).invoked = [] ∧
    (dispatchBatchErrorAlerts providers []).results = [] ∧
    (dispatchBatchErrorAlerts providers []).logs = [] := by
  by_cases hc : getConfiguredProviders providers = []
  · have hce : (getConfiguredProviders providers).isEmpty = true := by rw [hc]; rfl
    refine ⟨?_, ?_, ?_, ?_, rfl, rfl, rfl⟩
    · simp [dispatchErrorAlert, hce, hc]
    · simp [dispatchCriticalErrorAlert, hce, hc]
    · intro halerts
      have halertsE : alerts.isEmpty = false := by
        cases alerts
        · exact absurd rfl halerts
        · rfl
      simp [dispatchBatchErrorAlerts, halertsE, hce, hc]
    · intro _
      have halertsCase : ∀ al : List ErrorAlertData, al ≠ [] →
          (dispatchBatchErrorAlerts providers al).invoked = [] ∧
          AlertLog.skipNoProviders ∈ (dispatchBatchErrorAlerts providers al).logs := by
        intro al hal
        have halE : al.isEmpty = false := by
          cases al
          · exact absurd rfl hal
          · rfl
        constructor <;> simp [dispatchBatchErrorAlerts, halE, hce]
      exact ⟨by simp [dispatchErrorAlert, hce], by simp [dispatchErrorAlert, hce],
        halertsCase alerts⟩
  · have hce : (getConfiguredProviders providers).isEmpty = false := by
      cases hcc : getConfiguredProviders providers
      · exact absurd hcc hc
      · rfl
    refine ⟨?_, ?_, ?_, fun hcontra => absurd hcontra hc, rfl, rfl, rfl⟩
    · simp [dispatchErrorAlert, hce]
    · simp [dispatchCriticalErrorAlert, hce]
    · intro halerts
      have halertsE : alerts.isEmpty = false := by
        cases alerts
        · exact absurd rfl halerts
        · rfl
      simp [dispatchBatchErrorAlerts, halertsE, hce]

/-- Witness for C6 at concrete inputs: with `[Teams, Slack, Google Chat
(unconfigured)]` the invoked roster is `[Teams, Slack]` for single and
(nonempty) batch dispatch; with only the unconfigured provider, nothing is
invoked and the skip record is logged; the empty batch is a no-op. -/
theorem c6_dispatch_gating_witness :
    (dispatchErrorAlert [providerOk, providerRejecting, providerOff] sampleAlert).invoked
        = ["Teams", "Slack"] ∧
    (dispatchBatchErrorAlerts [providerOk, providerRejecting, providerOff]
        [sampleAlert]).invoked = ["Teams", "Slack"] ∧
    (dispatchErrorAlert [providerOff] sampleAlert).invoked = [] ∧
    AlertLog.skipNoProviders ∈ (dispatchErrorAlert [providerOff] sampleAlert).logs ∧
    (dispatchBatchErrorAlerts [providerOk, providerRejecting, providerOff] []).invoked = [] ∧
    (dispatchBatchErrorAlerts [providerOk, providerRejecting, providerOff] []).logs = [] := by
  have h1 := c6_dispatch_gating [providerOk, providerRejecting, providerOff] sampleAlert
    [sampleAlert]
  have h2 := c6_dispatch_gating [providerOff] sampleAlert [sampleAlert]
  have h2' := h2.2.2.2.1 rfl
  exact ⟨h1.1, h1.2.2.1 (by simp), h2'.1, h2'.2.1, h1.2.2.2.2.1, h1.2.2.2.2.2.2⟩

/-- Claim C8 — Implicit: every settled dispatcher result is fulfilled.  Each
per-backend promise carries the `.then(...).catch(...)` wrapping that converts
any rejection into a fulfilled failure record, so for every provider list and
every payload (of any of the three dispatch kinds) the results contain no
rejected entry and the rejected-results branch of `logAlertResults` emits no
log line. -/
theorem c8_dispatch_results_always_fulfilled (providers : List AlertProvider)
    (a : ErrorAlertData) (alerts : List ErrorAlertData) :
    ((dispatchErrorAlert providers a).results.filter isRejectedResult = [] ∧
      AlertLog.rejectedVia ∉ (dispatchErrorAlert providers a).logs) ∧
    ((dispatchCriticalErrorAlert providers a).results.filter isRejectedResult = [] ∧
      AlertLog.rejectedVia ∉ (dispatchCriticalErrorAlert providers a).logs) ∧
    ((dispatchBatchErrorAlerts providers alerts).results.filter isRejectedResult = [] ∧
      AlertLog.rejectedVia ∉ (dispatchBatchErrorAlerts providers alerts).logs) := by
  by_cases hc : (getConfiguredProviders providers).isEmpty = true
  · have he : ∀ al : List ErrorAlertData,
        (dispatchBatchErrorAlerts providers al).results = [] ∧
        AlertLog.rejectedVia ∉ (dispatchBatchErrorAlerts providers al).logs := by
      intro al
      cases hal : al.isEmpty
      · constructor <;> simp [dispatchBatchErrorAlerts, hal, hc]
      · have : al = [] := by
          cases al
          · rfl
          · exact absurd hal (by simp)
        constructor <;> simp [dispatchBatchErrorAlerts, this]
    refine ⟨⟨?_, ?_⟩, ⟨?_, ?_⟩, ⟨?_, ?_⟩⟩ <;>
      simp [dispatchErrorAlert, dispatchCriticalErrorAlert, hc, (he alerts).1, (he alerts).2]
  · have hce : (getConfiguredProviders providers).isEmpty = false := by
      cases h' : (getConfiguredProviders providers).isEmpty
      · rfl
      · exact absurd h' hc
    have herr : (dispatchErrorAlert providers a).results.filter isRejectedResult = [] := by
      simp only [dispatchErrorAlert, hce, Bool.false_eq_true, if_false]
      exact filter_rejected_settle_nil _ _
    have hcrit : (dispatchCriticalErrorAlert providers a).results.filter isRejectedResult
        = [] := by
      simp only [dispatchCriticalErrorAlert, hce, Bool.false_eq_true, if_false]
      exact filter_rejected_settle_nil _ _
    have hb : (dispatchBatchErrorAlerts providers alerts).results.filter isRejectedResult
        = [] := by
      cases hal : alerts.isEmpty
      · simp only [dispatchBatchErrorAlerts, hal, hce, Bool.false_eq_true, if_false]
        exact filter_rejected_settle_nil _ _
      · have : alerts = [] := by
          cases alerts
          · rfl
          · exact absurd hal (by simp)
        simp [dispatchBatchErrorAlerts, this]
    refine ⟨⟨herr, ?_⟩, ⟨hcrit, ?_⟩, ⟨hb, ?_⟩⟩
    · have hres : (dispatchErrorAlert providers a).logs = logAlertResults
          (dispatchErrorAlert providers a).results := by
        simp only [dispatchErrorAlert, hce, Bool.false_eq_true, if_false]
      rw [hres]
      exact rejectedVia_not_mem_logAlertResults _ herr
    · have hres : (dispatchCriticalErrorAlert providers a).logs = logAlertResults
          (dispatchCriticalErrorAlert providers a).results := by
        simp only [dispatchCriticalErrorAlert, hce, Bool.false_eq_true, if_false]
      rw [hres]
      exact rejectedVia_not_mem_logAlertResults _ hcrit
    · cases hal : alerts.isEmpty
      · have hres : (dispatchBatchErrorAlerts providers alerts).logs = logAlertResults
            (dispatchBatchErrorAlerts providers alerts).results := by
          simp only [dispatchBatchErrorAlerts, hal, hce, Bool.false_eq_true, if_false]
        rw [hres]
        exact rejectedVia_not_mem_logAlertResults _ hb
      · have : alerts = [] := by
          cases alerts
          · rfl
          · exact absurd hal (by simp)
        simp [dispatchBatchErrorAlerts, this]

/-! ### Helper lemmas: span operations -/

theorem bodyCaptureOps_all_setAttrs (x : Option String) (keys : List String) :
    ∀ op ∈ bodyCaptureOps x keys, isSetAttrsOp op = true := by
  intro op hop
  cases x with
  | none => simp [bodyCaptureOps] at hop
  | some s =>
    simp only [bodyCaptureOps] at hop
    split at hop
    · rw [List.mem_singleton.mp hop]; rfl
    · simp at hop

theorem argAttrOps_all_setAttrs (h : Heap) (cfg : TraceConfig) (i : Nat) (a : JsVal) :
    ∀ op ∈ argAttrOps h cfg i a, isSetAttrsOp op = true := by
  intro op hop
  simp only [argAttrOps] at hop
  split at hop
  · rcases List.mem_append.mp hop with h1 | h2
    · split at h1
      · simp at h1
      · rw [List.mem_singleton.mp h1]; rfl
    · split at h2
      · exact bodyCaptureOps_all_setAttrs _ _ op h2
      · simp at h2
  · simp at hop

theorem argsOps_all_setAttrs (h : Heap) (cfg : TraceConfig) (args : List JsVal) :
    ∀ op ∈ argsOps h cfg args, isSetAttrsOp op = true := by
  intro op hop
  simp only [argsOps, List.mem_flatten, List.mem_map] at hop
  obtain ⟨l, ⟨p, _, hpl⟩, hopl⟩ := hop
  exact argAttrOps_all_setAttrs h cfg p.1 p.2 op (hpl ▸ hopl)

theorem countP_zero_of_all_setAttrs (l : List SpanOp)
    (hall : ∀ op ∈ l, isSetAttrsOp op = true) :
    l.countP isStatusOp = 0 ∧ l.countP isLogOp = 0 ∧ l.countP isEndOp = 0 := by
  refine ⟨?_, ?_, ?_⟩ <;>
  · rw [List.countP_eq_zero]
    intro op hop
    have := hall op hop
    cases op <;> simp_all [isSetAttrsOp, isStatusOp, isLogOp, isEndOp]

/-- Claim C4 — Span finalization invariant, evaluated at the failing input:
the program violates the invariant.  When the wrapped method throws the plain
object `\x7b message: cyc \x7d` with `cyc.self = cyc` — a non-`Error` thrown
value, one of the exit paths the claim enumerates — the raw cyclic `message`
is stored into `spanData.status.message` and `spanData.error.message`
(lines 238, 242), so the finally block's `JSON.stringify(spanData, null, 2)`
(line 279) throws before `logger.log` and before `span.end()` (line 281): no
completion-record log line is emitted, the span is never closed, and the
`TypeError` propagates to the caller.  For contrast, on a thrown genuine
`Error` (a serializable completion record) the invariant does hold at the
same configuration: exactly one status write, one log, one close. -/
theorem c4_finally_stringify_skips_close :
    spanDataStringifyOk cyclicMessageHeap (defaultConfig "TestService.method")
        (.error (.ref 0)) = false ∧
    (traceWrap cyclicMessageHeap (defaultConfig "TestService.method") []
        (.error (.ref 0))).ops.countP isLogOp = 0 ∧
    (traceWrap cyclicMessageHeap (defaultConfig "TestService.method") []
        (.error (.ref 0))).ops.countP isEndOp = 0 ∧
    (traceWrap cyclicMessageHeap (defaultConfig "TestService.method") []
        (.error (.ref 0))).outcome
      = .error (.typeError "Converting circular structure to JSON") ∧
    (traceWrap errorBoomHeap (defaultConfig "TestService.method") []
        (.error (.ref 0))).ops.countP isStatusOp = 1 ∧
    (traceWrap errorBoomHeap (defaultConfig "TestService.method") []
        (.error (.ref 0))).ops.countP isLogOp = 1 ∧
    (traceWrap errorBoomHeap (defaultConfig "TestService.method") []
        (.error (.ref 0))).ops.countP isEndOp = 1 :=
  ⟨by decide, by decide, by decide, rfl, by decide, by decide, by decide⟩

/-! ### Helper lemmas: attribute keys -/

theorem mem_spanAttrKeys (key : String) (ops : List SpanOp) :
    key ∈ spanAttrKeys ops ↔ ∃ keys, SpanOp.setAttrs keys ∈ ops ∧ key ∈ keys := by
  simp only [spanAttrKeys, List.mem_flatten, List.mem_filterMap]
  constructor
  · rintro ⟨l, ⟨op, hmem, hmatch⟩, hkey⟩
    cases op with
    | setAttrs keys =>
      refine ⟨keys, hmem, ?_⟩
      simp only [Option.some.injEq] at hmatch
      rw [hmatch]
      exact hkey
    | addEvent _ => simp at hmatch
    | setStatus _ => simp at hmatch
    | recordException => simp at hmatch
    | logComplete => simp at hmatch
    | endSpan => simp at hmatch
  · rintro ⟨keys, hmem, hkey⟩
    exact ⟨keys, ⟨SpanOp.setAttrs keys, hmem, rfl⟩, hkey⟩

theorem setAttrs_not_mem_finallyOps (keys : List String) (ok : Bool) :
    SpanOp.setAttrs keys ∉ finallyOps ok := by
  cases ok <;> simp [finallyOps]

theorem methodArgKey_head (s k : String) :
    ("method.arg." ++ s ++ "." ++ k).toList.head? = some 'm' := by
  have h1 : ("method.arg." ++ s ++ "." ++ k).toList
      = "method.arg.".toList ++ s.toList ++ ".".toList ++ k.toList := by
    simp [String.toList, String.data_append]
  rw [h1]
  rfl

theorem argAttrOps_keys_shape (h : Heap) (cfg : TraceConfig) (i : Nat) (a : JsVal)
    (keys : List String)
    (hv : extractAndSanitizeBody h a cfg = none)
    (hop : SpanOp.setAttrs keys ∈ argAttrOps h cfg i a) :
    ∀ key ∈ keys, ∃ s k, key = "method.arg." ++ s ++ "." ++ k := by
  simp only [argAttrOps, hv, bodyCaptureOps] at hop
  split at hop
  · rcases List.mem_append.mp hop with h1 | h2
    · split at h1
      · simp at h1
      · have hkeys : keys = (safeArgKeys.filter (fun k => (getProp h a k).isSome)).map
            (fun k => "method.arg." ++ String.mk (natChars i) ++ "." ++ k) :=
          SpanOp.setAttrs.inj (List.mem_singleton.mp h1)
        intro key hkey
        rw [hkeys] at hkey
        obtain ⟨k, _, hk⟩ := List.mem_map.mp hkey
        exact ⟨String.mk (natChars i), k, hk.symm⟩
    · split at h2 <;> simp at h2
  · simp at hop

/-- Claim C9 — Implicit guards of body extraction: `extractAndSanitizeBody`
returns `null` whenever the candidate is not an object (strings and numbers
included), whenever the candidate is falsy, and whenever the selected payload
field is falsy (empty-string body, `0`, `false`) even though the candidate is
truthy; and in those cases no `request.body` / `response.body` / `error.body`
attribute is written on the span (for configurations whose `customContext`
does not itself declare those keys). -/
theorem c9_extract_null_guards :
    (∀ (h : Heap) (v : JsVal) (cfg : TraceConfig),
      typeofVal v ≠ "object" → extractAndSanitizeBody h v cfg = none) ∧
    (∀ (h : Heap) (v : JsVal) (cfg : TraceConfig),
      truthy v = false → extractAndSanitizeBody h v cfg = none) ∧
    (∀ (h : Heap) (v : JsVal) (cfg : TraceConfig),
      truthy (selectBody h v) = false → extractAndSanitizeBody h v cfg = none) ∧
    (∀ (h : Heap) (cfg : TraceConfig) (v : JsVal) (mo : Except JsVal JsVal),
      extractAndSanitizeBody h v cfg = none →
      (∀ r, mo = Except.ok r → extractAndSanitizeBody h r cfg = none) →
      (∀ e, mo = Except.error e → extractAndSanitizeBody h e cfg = none) →
      "request.body" ∉ cfg.customContextKeys →
      "response.body" ∉ cfg.customContextKeys →
      "error.body" ∉ cfg.customContextKeys →
      "request.body" ∉ spanAttrKeys (traceWrap h cfg [v] mo).ops ∧
      "response.body" ∉ spanAttrKeys (traceWrap h cfg [v] mo).ops ∧
      "error.body" ∉ spanAttrKeys (traceWrap h cfg [v] mo).ops) := by
  refine ⟨?_, ?_, ?_, ?_⟩
  · intro h v cfg htype
    simp only [extractAndSanitizeBody]
    rw [if_pos]
    simp [bne_iff_ne, htype]
  · intro h v cfg hfalsy
    simp only [extractAndSanitizeBody]
    rw [if_pos]
    simp [hfalsy]
  · intro h v cfg hfalsy
    simp only [extractAndSanitizeBody]
    by_cases hg : (!truthy v || typeofVal v != "object") = true
    · rw [if_pos hg]
    · rw [if_neg hg]
      rw [if_pos]
      simp [hfalsy]
  · intro h cfg v mo hv hok herr hc1 hc2 hc3
    have hargs : argsOps h cfg [v] = argAttrOps h cfg 0 v := by
      simp [argsOps]
    have main : ∀ t : String, t.toList.head? ≠ some 'm' →
        t ∉ cfg.customContextKeys →
        (t ∈ ["service.name", "method.name", "method.args.count", "teams.alert.enabled",
          "teams.alert.severity", "teams.alert.business_impact",
          "teams.alert.user_affected"] → False) →
        (t ∈ (["error", "error.type"] : List String) → False) →
        t ∉ spanAttrKeys (traceWrap h cfg [v] mo).ops := by
      intro t ht hcc hbase herrk hmem
      rw [mem_spanAttrKeys] at hmem
      obtain ⟨keys, hop, hkey⟩ := hmem
      have hbaseCase : keys = baselineKeys cfg → False := by
        intro hkeys
        rw [hkeys] at hkey
        simp only [baselineKeys] at hkey
        rcases List.mem_append.mp hkey with hk1 | hk2
        · exact hbase hk1
        · exact hcc hk2
      have hargCase : SpanOp.setAttrs keys ∈ argAttrOps h cfg 0 v → False := by
        intro hop2
        obtain ⟨s, k, hk⟩ := argAttrOps_keys_shape h cfg 0 v keys hv hop2 t hkey
        rw [hk] at ht
        exact ht (methodArgKey_head s k)
      cases mo with
      | ok r =>
        have hr := hok r rfl
        simp only [traceWrap, hr, bodyCaptureOps, hargs, ite_self] at hop
        by_cases hinc : cfg.includeArgs
        · simp [hinc, hargs, setAttrs_not_mem_finallyOps, List.mem_cons, List.mem_append] at hop
          rcases hop with hkeys | hop2
          · exact hbaseCase hkeys
          · exact hargCase hop2
        · simp [hinc, hargs, setAttrs_not_mem_finallyOps, List.mem_cons, List.mem_append] at hop
          exact hbaseCase hop
      | error e =>
        have he := herr e rfl
        by_cases hn : e = JsVal.null
        · have hbeq : (e == JsVal.null) = true := by simp [hn]
          simp only [traceWrap, hbeq, hargs, if_true] at hop
          by_cases hinc : cfg.includeArgs
          · simp [hinc, hargs, setAttrs_not_mem_finallyOps, List.mem_cons, List.mem_append] at hop
            rcases hop with hkeys | hop2
            · exact hbaseCase hkeys
            · exact hargCase hop2
          · simp [hinc, hargs, setAttrs_not_mem_finallyOps, List.mem_cons, List.mem_append] at hop
            exact hbaseCase hop
        · by_cases hu : e = JsVal.undef
          · have hbeq : (e == JsVal.null) = false := by simp [hn]
            have hbeq2 : (e == JsVal.undef) = true := by simp [hu]
            simp only [traceWrap, hbeq, hbeq2, Bool.false_eq_true, if_false, if_true] at hop
            by_cases hinc : cfg.includeArgs
            · simp [hinc, hargs, setAttrs_not_mem_finallyOps, List.mem_cons, List.mem_append] at hop
              rcases hop with hkeys | hop2
              · exact hbaseCase hkeys
              · exact hargCase hop2
            · simp [hinc, hargs, setAttrs_not_mem_finallyOps, List.mem_cons, List.mem_append] at hop
              exact hbaseCase hop
          · have hbeq : (e == JsVal.null) = false := by simp [hn]
            have hbeq2 : (e == JsVal.undef) = false := by simp [hu]
            simp only [traceWrap, hbeq, hbeq2, Bool.false_eq_true, if_false, he,
              hargs, ite_self, List.append_nil] at hop
            by_cases hinc : cfg.includeArgs
            · simp [hinc, hargs, setAttrs_not_mem_finallyOps, List.mem_cons, List.mem_append] at hop
              rcases hop with hkeys | hop2 | hkeys2
              · exact hbaseCase hkeys
              · exact hargCase hop2
              · rw [hkeys2] at hkey
                exact herrk hkey
            · simp [hinc, hargs, setAttrs_not_mem_finallyOps, List.mem_cons, List.mem_append] at hop
              rcases hop with hkeys | hkeys2
              · exact hbaseCase hkeys
              · rw [hkeys2] at hkey
                exact herrk hkey
    exact ⟨main "request.body" (by decide) hc1 (by decide) (by decide),
      main "response.body" (by decide) hc2 (by decide) (by decide),
      main "error.body" (by decide) hc3 (by decide) (by decide)⟩

/-- Witness for C9: a string candidate, a `null` candidate, a truthy object
with an empty-string `body`, and the absence of the `request.body` attribute on
a wrapped call that received that object. -/
theorem c9_extract_null_guards_witness :
    extractAndSanitizeBody [] (.str "hello") (defaultConfig "S.m") = none ∧
    extractAndSanitizeBody [] JsVal.null (defaultConfig "S.m") = none ∧
    extractAndSanitizeBody emptyBodyHeap (.ref 0) (defaultConfig "S.m") = none ∧
    "request.body" ∉ spanAttrKeys
      (traceWrap emptyBodyHeap (defaultConfig "S.m") [.ref 0] (.ok (.str "x"))).ops := by
  refine ⟨c9_extract_null_guards.1 [] (.str "hello") (defaultConfig "S.m") (by decide),
    c9_extract_null_guards.2.1 [] JsVal.null (defaultConfig "S.m") (by decide),
    c9_extract_null_guards.2.2.1 emptyBodyHeap (.ref 0) (defaultConfig "S.m") (by decide),
    (c9_extract_null_guards.2.2.2 emptyBodyHeap (defaultConfig "S.m") (.ref 0)
      (.ok (.str "x")) (by decide) ?_ ?_ (by decide) (by decide) (by decide)).1⟩
  · intro r hr
    injection hr with h1
    rw [← h1]
    decide
  · intro e he
    exact Except.noConfusion he

/-! ### Helper lemmas: serializer output -/

theorem infixExtendRight {α : Type} {l₁ l₂ : List α} (l₃ : List α) (h : l₁.IsInfix l₂) :
    l₁.IsInfix (l₂ ++ l₃) := by
  obtain ⟨s, t, hst⟩ := h
  exact ⟨s, t ++ l₃, by rw [← hst]; simp⟩

theorem infixExtendCons {α : Type} {l₁ l₂ : List α} (a : α) (h : l₁.IsInfix l₂) :
    l₁.IsInfix (a :: l₂) := by
  obtain ⟨s, t, hst⟩ := h
  exact ⟨a :: s, t, by rw [← hst]; simp⟩

theorem joinSep_mem_infix {x : List Char} (sep : List Char) {parts : List (List Char)}
    (hx : x ∈ parts) : x.IsInfix (joinSep sep parts) := by
  induction parts with
  | nil => simp at hx
  | cons p rest ih =>
    rcases List.mem_cons.mp hx with hxp | hxr
    · subst hxp
      cases rest with
      | nil => exact ⟨[], [], by simp [joinSep]⟩
      | cons q qs => exact ⟨[], sep ++ joinSep sep (q :: qs), by simp [joinSep]⟩
    · cases rest with
      | nil => simp at hxr
      | cons q qs =>
        obtain ⟨s, t, hst⟩ := ih hxr
        exact ⟨p ++ sep ++ s, t, by rw [show joinSep sep (p :: q :: qs)
          = p ++ sep ++ joinSep sep (q :: qs) from rfl, ← hst]; simp⟩

theorem printJsonSpacedEntries_mem {k : String} {v : JsonValue}
    {fields : List (String × JsonValue)} (hkv : (k, v) ∈ fields) :
    (jsonQuoteChars k ++ ':' :: ' ' :: printJsonSpaced v) ∈ printJsonSpacedEntries fields := by
  induction fields with
  | nil => simp at hkv
  | cons kv rest ih =>
    obtain ⟨k', v'⟩ := kv
    rcases List.mem_cons.mp hkv with heq | hmem
    · cases heq
      exact List.mem_cons_self _ _
    · exact List.mem_cons_of_mem _ (ih hmem)

/-- Claim C2 — Safe serialization of cyclic input (spec-modelled serializer).
For every heap object holding a self-reference under the key `self` (with no
`undefined`-valued fields and `self` not itself a redacted key), the serializer
terminates and renders the object; the rendered object keeps every sibling
key, the `self` entry renders as exactly the literal string
`"[CIRCULAR_REFERENCE]"`, and the substring `"self": "[CIRCULAR_REFERENCE]"`
occurs in the output string. -/
theorem c2_safeStringify_circular (h : Heap) (n : Nat) (o : HObj) (fragments : List String)
    (hget : h.get? n = some o)
    (hself : ("self", JsVal.ref n) ∈ o.fields)
    (hdef : o.fields.all (fun kv => kv.2 != JsVal.undef) = true)
    (hns : isSensitiveKey "self" fragments = false) :
    ∃ entries, safeRender h fragments none (JsVal.ref n) = .jobj entries ∧
      entries.map Prod.fst = o.fields.map Prod.fst ∧
      ("self", JsonValue.jstr "[CIRCULAR_REFERENCE]") ∈ entries ∧
      ("\"self\": \"[CIRCULAR_REFERENCE]\"".toList).IsInfix
        (safeStringify h fragments none (JsVal.ref n)).toList := by
  have hexpand : safeRender h fragments none (JsVal.ref n)
      = match h.get? n with
        | none => JsonValue.jnull
        | some o => .jobj ((o.fields.filter (fun kv => kv.2 != JsVal.undef)).map (fun kv =>
            (kv.1, if isSensitiveKey kv.1 fragments then JsonValue.jstr "[REDACTED]"
                   else safeRenderAux h fragments h.length none [n] kv.2))) := rfl
  have hfilter : o.fields.filter (fun kv => kv.2 != JsVal.undef) = o.fields :=
    List.filter_eq_self.mpr (List.all_eq_true.mp hdef)
  have hexpand2 : safeRender h fragments none (JsVal.ref n)
      = .jobj (o.fields.map (fun kv =>
          (kv.1, if isSensitiveKey kv.1 fragments then JsonValue.jstr "[REDACTED]"
                 else safeRenderAux h fragments h.length none [n] kv.2))) := by
    rw [hexpand, hget]
    show JsonValue.jobj ((o.fields.filter (fun kv => kv.2 != JsVal.undef)).map (fun kv =>
      (kv.1, if isSensitiveKey kv.1 fragments then JsonValue.jstr "[REDACTED]"
             else safeRenderAux h fragments h.length none [n] kv.2))) = _
    rw [hfilter]
  have hcirc : safeRenderAux h fragments h.length none [n] (JsVal.ref n)
      = .jstr "[CIRCULAR_REFERENCE]" := by
    rw [safeRenderAux.eq_def]
    simp
  refine ⟨_, hexpand2, ?_, ?_, ?_⟩
  · rw [List.map_map]
    exact List.map_congr_left (fun kv _ => by rcases kv with ⟨k, v⟩; rfl)
  · have := List.mem_map_of_mem (fun kv : String × JsVal =>
      (kv.1, if isSensitiveKey kv.1 fragments then JsonValue.jstr "[REDACTED]"
             else safeRenderAux h fragments h.length none [n] kv.2)) hself
    simpa [hns, hcirc] using this
  · have hmem : ("self", JsonValue.jstr "[CIRCULAR_REFERENCE]")
        ∈ o.fields.map (fun kv =>
          (kv.1, if isSensitiveKey kv.1 fragments then JsonValue.jstr "[REDACTED]"
                 else safeRenderAux h fragments h.length none [n] kv.2)) := by
      have := List.mem_map_of_mem (fun kv : String × JsVal =>
        (kv.1, if isSensitiveKey kv.1 fragments then JsonValue.jstr "[REDACTED]"
               else safeRenderAux h fragments h.length none [n] kv.2)) hself
      simpa [hns, hcirc] using this
    have hfrag : ("\"self\": \"[CIRCULAR_REFERENCE]\"".toList)
        = jsonQuoteChars "self" ++ ':' :: ' '
            :: printJsonSpaced (JsonValue.jstr "[CIRCULAR_REFERENCE]") := rfl
    have hentry := printJsonSpacedEntries_mem hmem
    have hinfix := joinSep_mem_infix (", ".toList) hentry
    have hout : (safeStringify h fragments none (JsVal.ref n)).toList
        = '\x7b' :: joinSep (", ".toList)
            (printJsonSpacedEntries (o.fields.map (fun kv =>
              (kv.1, if isSensitiveKey kv.1 fragments then JsonValue.jstr "[REDACTED]"
                     else safeRenderAux h fragments h.length none [n] kv.2))))
          ++ ['\x7d'] := by
      rw [show (safeStringify h fragments none (JsVal.ref n)).toList
          = printJsonSpaced (safeRender h fragments none (JsVal.ref n)) from rfl, hexpand2]
      rfl
    rw [hfrag, hout]
    exact infixExtendCons _ (infixExtendRight _ hinfix)

/-- Witness for C2 at the concrete cyclic object
`obj = \x7b name: "test" \x7d; obj.self = obj` with the default redact
fragments: the sibling is preserved and rendered, the self-reference renders as
`"[CIRCULAR_REFERENCE]"`, and the full output string is as expected. -/
theorem c2_safeStringify_circular_witness :
    (∃ entries, safeRender cyclicSelfHeap
        ["password", "token", "secret", "key", "authorization"] none (JsVal.ref 0)
        = .jobj entries ∧
      entries.map Prod.fst = ["name", "self"] ∧
      ("self", JsonValue.jstr "[CIRCULAR_REFERENCE]") ∈ entries ∧
      ("\"self\": \"[CIRCULAR_REFERENCE]\"".toList).IsInfix
        (safeStringify cyclicSelfHeap
          ["password", "token", "secret", "key", "authorization"] none
          (JsVal.ref 0)).toList) ∧
    safeStringify cyclicSelfHeap ["password", "token", "secret", "key", "authorization"]
        none (JsVal.ref 0)
      = "\x7b\"name\": \"test\", \"self\": \"[CIRCULAR_REFERENCE]\"\x7d" := by
  refine ⟨?_, rfl⟩
  have := c2_safeStringify_circular cyclicSelfHeap 0
    ⟨"Object", false, [("name", .str "test"), ("self", .ref 0)], []⟩
    ["password", "token", "secret", "key", "authorization"]
    rfl (by decide) (by decide) (by decide)
  simpa using this
